import Mathlib

/-!
# Pipeyard — verification of the job-queue core

Shallow embedding of the Pipeyard background-job system:
* the worker lifecycle (`apps/worker`: `processJobWithLifecycle`,
  `markJobFailed`, the `runWorker` loop body),
* the processing-strategy dispatcher (`apps/worker/processor.ts`:
  `processJob`),
* the WebSocket subscription registry and fan-out
  (`apps/backend`: the `subscriptions` map, the `message` and `close`
  handlers, `broadcastJobUpdate`),
* the `POST /jobs` handler with its zod validation
  (`packages/types/schemas.ts`: `CreateJobSchema`,
  `WSClientMessageSchema`).

The job store (Prisma) is modelled as a map from id to record; the Redis
list queue is a Lean list where `lpush` conses at the head and `brpop`
pops from the tail; the pub/sub bus is the ordered list of published
events.  The outcome of one invocation of a processing strategy (network,
randomness, sleeping) is an environment parameter.
-/

namespace Pipeyard

/-- Job status, as in the Prisma enum `JobStatus`
(`PENDING | RUNNING | COMPLETED | FAILED`). -/
inductive JobStatus
  | PENDING
  | RUNNING
  | COMPLETED
  | FAILED
deriving DecidableEq, Repr

/-- One row of the `Job` table, restricted to the fields the core logic
reads or writes (`payload`, `createdAt`, `updatedAt` are opaque to the
lifecycle; the job's `type` selects the strategy). -/
structure Job where
  tenantId : String
  type : String
  status : JobStatus
  attempts : Nat
  error : Option String
deriving DecidableEq, Repr

/-- `const MAX_ATTEMPTS = 3` in the worker. -/
def MAX_ATTEMPTS : Nat := 3

/-- A `JobUpdateMessage` published on the `job_updates` pub/sub channel. -/
structure UpdateEvent where
  tenantId : String
  jobId : String
  status : JobStatus
  error : Option String
deriving DecidableEq, Repr

/-- The worker-visible system state: the job store keyed by id, the
`job_queue` Redis list (head = left/`lpush` side, tail = right/`brpop`
side), and the sequence of events published so far. -/
structure WorkerState where
  jobs : String → Option Job
  queue : List String
  published : List UpdateEvent

/-- `prisma.job.update({ where: { id }, data })`: apply `f` to the stored
row with this id.  (On a missing row Prisma raises; every call site in
the worker has already fetched the row, so the missing case is
unreachable there and modelled as a no-op.) -/
def mapJob (s : WorkerState) (jobId : String) (f : Job → Job) : WorkerState :=
  { s with jobs := fun id => if id = jobId then (s.jobs id).map f else s.jobs id }

/-- `publishUpdate` in the worker: publish a `JobUpdateMessage` on the bus. -/
def appendEvent (s : WorkerState) (e : UpdateEvent) : WorkerState :=
  { s with published := s.published ++ [e] }

/-- `markJobFailed(jobId, tenantId, error)` in the worker: set the row to
`FAILED` with the given error, then publish a FAILED update. -/
def markJobFailed (s : WorkerState) (jobId tenantId : String) (error : String) :
    WorkerState :=
  appendEvent
    (mapJob s jobId fun j => { j with status := .FAILED, error := some error })
    { tenantId := tenantId, jobId := jobId, status := .FAILED, error := some error }

/-- What one invocation of the processing strategy does: resolve with
`{ success: true }`, resolve with `{ success: false, error? }`, or reject
(throw) with a message. -/
inductive ProcessOutcome
  | success
  | failure (error : Option String)
  | raise (message : String)
deriving DecidableEq, Repr

/-- The error message the lifecycle's `catch` block ends up with, or
`none` on success: a `success: false` result is re-thrown as
`new Error(result.error || "Job processing failed")` (JS `||`, so the
empty string also falls back), and a thrown `Error`'s own message is
used as is. -/
def failureMessage : ProcessOutcome → Option String
  | .success => none
  | .failure e =>
      some (match e with
        | some m => if m = "" then "Job processing failed" else m
        | none => "Job processing failed")
  | .raise m => some m

/-- The four `case` labels of the `switch (type)` in
`apps/worker/processor.ts`. -/
def knownJobTypes : List String := ["email", "webhook", "sleep", "data_processing"]

/-- `processJob(type, payload)` in `apps/worker/processor.ts`: dispatch on
the job type.  A known type runs its strategy (whose outcome is the
environment parameter `strategyOutcome`); the `default` branch throws
`Unknown job type: ${type}`. -/
def processJob (type : String) (strategyOutcome : ProcessOutcome) : ProcessOutcome :=
  if type ∈ knownJobTypes then strategyOutcome
  else .raise ("Unknown job type: " ++ type)

/-- `processJobWithLifecycle(jobId)` in the worker, with the strategy's
outcome for this invocation passed as `outcome`:

1. fetch the row; missing → return;
2. `status === "COMPLETED"` → return;
3. `attempts >= MAX_ATTEMPTS` → `markJobFailed(..., "Max retry attempts
   exceeded")`;
4. set `RUNNING`, `attempts += 1`, publish RUNNING;
5. run the strategy; on success set `COMPLETED`, `error: null`, publish
   COMPLETED; on failure with `newAttempts = job.attempts + 1`: if
   `newAttempts >= MAX_ATTEMPTS` then `markJobFailed` with the failure's
   message, else set `PENDING` with the message in `error` and
   `lpush` the id back onto `job_queue`. -/
def processJobWithLifecycle (s : WorkerState) (jobId : String)
    (outcome : ProcessOutcome) : WorkerState :=
  match s.jobs jobId with
  | none => s
  | some job =>
    if job.status = .COMPLETED then s
    else if MAX_ATTEMPTS ≤ job.attempts then
      markJobFailed s jobId job.tenantId "Max retry attempts exceeded"
    else
      let s1 := mapJob s jobId fun j =>
        { j with status := .RUNNING, attempts := j.attempts + 1 }
      let s2 := appendEvent s1
        { tenantId := job.tenantId, jobId := jobId, status := .RUNNING, error := none }
      match failureMessage outcome with
      | none =>
        let s3 := mapJob s2 jobId fun j => { j with status := .COMPLETED, error := none }
        appendEvent s3
          { tenantId := job.tenantId, jobId := jobId, status := .COMPLETED, error := none }
      | some errorMessage =>
        if MAX_ATTEMPTS ≤ job.attempts + 1 then
          markJobFailed s2 jobId job.tenantId errorMessage
        else
          let s3 := mapJob s2 jobId fun j =>
            { j with status := .PENDING, error := some errorMessage }
          { s3 with queue := jobId :: s3.queue }

/-- Iterate the lifecycle over a list of (job id, strategy outcome)
pairs: what a sequence of dequeue-process-update passes does to the
store. -/
def applySteps (s : WorkerState) (steps : List (String × ProcessOutcome)) :
    WorkerState :=
  steps.foldl (fun st p => processJobWithLifecycle st p.1 p.2) s

/-- One pass of the `runWorker` loop body: `popJob` (a `brpop`, so the
tail of the list), then `processJobWithLifecycle` on the popped id,
dispatching through `processJob` on the stored row's type; an empty
queue (timeout) leaves the state alone.  The whole body sits in a
`try`/`catch`, so the loop always continues to the next pass. -/
def runWorkerStep (s : WorkerState) (oracle : String → ProcessOutcome) :
    WorkerState :=
  match s.queue.getLast? with
  | none => s
  | some jobId =>
    let s1 : WorkerState := { s with queue := s.queue.dropLast }
    match s1.jobs jobId with
    | none => processJobWithLifecycle s1 jobId .success
    | some job => processJobWithLifecycle s1 jobId (processJob job.type (oracle job.type))

/-- `attempts` of the stored row, 0 when the row is absent. -/
def attemptsOf (s : WorkerState) (jobId : String) : Nat :=
  match s.jobs jobId with
  | some j => j.attempts
  | none => 0

/-! ## Subscription registry, fan-out and WebSocket message handling
(`apps/backend`) -/

/-- The backend's `subscriptions: Map<string, Set<WebSocket>>`, with live
connections named by numbers; `Map.get` of an absent tenant is the empty
set. -/
abbrev Registry := String → Finset Nat

/-- `broadcastJobUpdate(tenantId, jobId, status, error)`: look up the
tenant's connection set and `send` the JOB_UPDATE payload to each member
whose `readyState` is `WebSocket.OPEN`.  The function reads the registry
and never writes it, so the registry after the call is the input
registry; the second component is the set of connections the payload was
sent to. -/
def broadcastJobUpdate (subs : Registry) (ready : Nat → Bool)
    (tenantId jobId : String) (status : JobStatus) (error : Option String) :
    Registry × Finset Nat :=
  (subs, (subs tenantId).filter fun c => ready c = true)

/-- The fields of one parsed client JSON message that
`WSClientMessageSchema` inspects: the string values of its `type` and
`tenantId` keys (`none` when the key is absent or not a string). -/
structure RawClientMessage where
  type : Option String
  tenantId : Option String
deriving DecidableEq, Repr

/-- A well-formed client message (`WSSubscribe` / `WSUnsubscribe`). -/
inductive ClientMsg
  | subscribe (tenantId : String)
  | unsubscribe (tenantId : String)
deriving DecidableEq, Repr

/-- `WSClientMessageSchema.safeParse`: a discriminated union on `type` of
`WSSubscribeSchema` and `WSUnsubscribeSchema`, each requiring
`tenantId: z.string().min(1)`. -/
def safeParseClientMessage (m : RawClientMessage) : Option ClientMsg :=
  match m.type, m.tenantId with
  | some "SUBSCRIBE", some t => if 1 ≤ t.length then some (.subscribe t) else none
  | some "UNSUBSCRIBE", some t => if 1 ≤ t.length then some (.unsubscribe t) else none
  | _, _ => none

/-- The `ws.on("message")` handler: `JSON.parse` the raw data (`none`
models data that is not valid JSON, in which case the `catch` block
replies `ERROR "Failed to parse message"`); run
`WSClientMessageSchema.safeParse` (on failure reply
`ERROR "Invalid message format"`); on SUBSCRIBE add the connection to the
tenant's set (creating it when absent), on UNSUBSCRIBE delete it.  The
second component is the ERROR reply sent back, if any. -/
def handleClientMessage (subs : Registry) (conn : Nat)
    (data : Option RawClientMessage) : Registry × Option String :=
  match data with
  | none => (subs, some "Failed to parse message")
  | some m =>
    match safeParseClientMessage m with
    | none => (subs, some "Invalid message format")
    | some (.subscribe t) =>
        (fun tid => if tid = t then insert conn (subs tid) else subs tid, none)
    | some (.unsubscribe t) =>
        (fun tid => if tid = t then (subs tid).erase conn else subs tid, none)

/-- The `ws.on("close")` handler:
`subscriptions.forEach((clients) => clients.delete(ws))`. -/
def handleClose (subs : Registry) (conn : Nat) : Registry :=
  fun tid => (subs tid).erase conn

/-! ## `POST /jobs` and `CreateJobSchema` -/

/-- The `type` enum accepted by `CreateJobSchema`:
`z.enum([JobType.EMAIL, JobType.WEBHOOK, JobType.SLEEP, JobType.DATA_PROCESSING])`. -/
def createJobTypeEnum : List String := ["email", "webhook", "sleep", "data_processing"]

/-- What `JobPayloadSchema` can observe of the `payload` value: the union's
four object schemas and its `z.record(z.string(), z.unknown())` catch-all
all require a JSON object, and the record branch accepts every object, so
a present payload validates exactly when it is an object. -/
inductive JsonShape
  | object
  | nonObject
deriving DecidableEq, Repr

/-- The fields of a `POST /jobs` request body that `CreateJobSchema`
inspects. -/
structure RawCreateJobBody where
  tenantId : Option String
  type : Option String
  payload : Option JsonShape
deriving DecidableEq, Repr

/-- `CreateJobSchema.safeParse`:
`tenantId: z.string().min(1).max(100)`, `type` drawn from the enum,
`payload` matching `JobPayloadSchema`. -/
def safeParseCreateJob (b : RawCreateJobBody) : Option (String × String) :=
  match b.tenantId, b.type, b.payload with
  | some tid, some ty, some .object =>
      if 1 ≤ tid.length ∧ tid.length ≤ 100 ∧ ty ∈ createJobTypeEnum then
        some (tid, ty)
      else none
  | _, _, _ => none

/-- `app.post("/jobs")` in the backend: validate the body with
`CreateJobSchema.safeParse`; on failure respond 400 and touch neither the
store nor the queue; on success `prisma.job.create` a `PENDING` row under
the fresh id `newId` (Prisma column defaults: `attempts = 0`,
`error = NULL`), `pushJob` (an `lpush`) the new id onto `job_queue`, and
respond 201.  The second component is the HTTP status code. -/
def postJobs (s : WorkerState) (newId : String) (b : RawCreateJobBody) :
    WorkerState × Nat :=
  match safeParseCreateJob b with
  | none => (s, 400)
  | some (tid, ty) =>
      let newJob : Job :=
        { tenantId := tid, type := ty, status := .PENDING, attempts := 0, error := none }
      let s1 : WorkerState :=
        { s with jobs := fun id => if id = newId then some newJob else s.jobs id }
      ({ s1 with queue := newId :: s1.queue }, 201)

/-! ## Concrete states used by witnesses and counterexamples -/

/-- A one-job store used to evaluate the lifecycle on concrete inputs. -/
def exJob (st : JobStatus) (a : Nat) (e : Option String) : Job :=
  { tenantId := "t1", type := "sleep", status := st, attempts := a, error := e }

/-- A state holding exactly the job `"j1"` with the given status,
attempts and error; empty queue, nothing published yet. -/
def exState (st : JobStatus) (a : Nat) (e : Option String) : WorkerState :=
  { jobs := fun id => if id = "j1" then some (exJob st a e) else none
    queue := []
    published := [] }

/-- A job of a type no strategy is registered for. -/
def exJobU : Job :=
  { tenantId := "t1", type := "pdf", status := .PENDING, attempts := 0, error := none }

/-- A state holding the unknown-type job `"j1"`, already sitting in the
queue. -/
def exStateU : WorkerState :=
  { jobs := fun id => if id = "j1" then some exJobU else none
    queue := ["j1"]
    published := [] }

/-- A registry with two connections on tenant `"t1"` and one on `"t2"`. -/
def exSubs : Registry := fun t =>
  if t = "t1" then {0, 1} else if t = "t2" then {2} else ∅

/-- A registry where tenant `"t1"` has connections 0 and 1. -/
def exSubsClosed : Registry := fun t => if t = "t1" then {0, 1} else ∅

/-- A `POST /jobs` body that passes `CreateJobSchema`. -/
def exGoodBody : RawCreateJobBody :=
  { tenantId := some "t1", type := some "email", payload := some .object }

/-- A `POST /jobs` body whose payload is not a JSON object, so
`CreateJobSchema` rejects it. -/
def exBadBody : RawCreateJobBody :=
  { tenantId := some "t1", type := some "email", payload := some .nonObject }

/-! ## Basic facts about the lifecycle branches -/

lemma markJobFailed_jobs_self (s : WorkerState) (jobId tenantId err : String)
    (job : Job) (hj : s.jobs jobId = some job) :
    (markJobFailed s jobId tenantId err).jobs jobId =
      some { job with status := .FAILED, error := some err } := by
  simp [markJobFailed, mapJob, appendEvent, hj]

lemma markJobFailed_jobs_ne (s : WorkerState) (jobId tenantId err : String)
    (j : String) (h : j ≠ jobId) :
    (markJobFailed s jobId tenantId err).jobs j = s.jobs j := by
  simp [markJobFailed, mapJob, appendEvent, h]

lemma markJobFailed_queue (s : WorkerState) (jobId tenantId err : String) :
    (markJobFailed s jobId tenantId err).queue = s.queue := rfl

lemma markJobFailed_published (s : WorkerState) (jobId tenantId err : String) :
    (markJobFailed s jobId tenantId err).published =
      s.published ++ [⟨tenantId, jobId, .FAILED, some err⟩] := rfl

lemma step_missing (s : WorkerState) (jobId : String) (o : ProcessOutcome)
    (h : s.jobs jobId = none) : processJobWithLifecycle s jobId o = s := by
  simp [processJobWithLifecycle, h]

lemma step_completed (s : WorkerState) (jobId : String) (o : ProcessOutcome)
    (job : Job) (hj : s.jobs jobId = some job) (hc : job.status = .COMPLETED) :
    processJobWithLifecycle s jobId o = s := by
  simp [processJobWithLifecycle, hj, hc]

lemma step_maxed (s : WorkerState) (jobId : String) (o : ProcessOutcome)
    (job : Job) (hj : s.jobs jobId = some job) (hc : job.status ≠ .COMPLETED)
    (hm : MAX_ATTEMPTS ≤ job.attempts) :
    processJobWithLifecycle s jobId o =
      markJobFailed s jobId job.tenantId "Max retry attempts exceeded" := by
  simp [processJobWithLifecycle, hj, hc, hm]

lemma step_success (s : WorkerState) (jobId : String) (o : ProcessOutcome)
    (job : Job) (hj : s.jobs jobId = some job) (hc : job.status ≠ .COMPLETED)
    (ha : job.attempts < MAX_ATTEMPTS) (ho : failureMessage o = none) :
    (processJobWithLifecycle s jobId o).jobs jobId =
        some { job with status := .COMPLETED, attempts := job.attempts + 1, error := none } ∧
    (∀ j, j ≠ jobId → (processJobWithLifecycle s jobId o).jobs j = s.jobs j) ∧
    (processJobWithLifecycle s jobId o).queue = s.queue ∧
    (processJobWithLifecycle s jobId o).published = s.published ++
      [⟨job.tenantId, jobId, .RUNNING, none⟩, ⟨job.tenantId, jobId, .COMPLETED, none⟩] := by
  have hm : ¬ MAX_ATTEMPTS ≤ job.attempts := Nat.not_le.mpr ha
  refine ⟨?_, fun j hji => ?_, ?_, ?_⟩ <;>
    simp [processJobWithLifecycle, hj, hc, hm, ho, mapJob, appendEvent, *]

lemma step_fail_final (s : WorkerState) (jobId : String) (o : ProcessOutcome)
    (job : Job) (msg : String) (hj : s.jobs jobId = some job)
    (hc : job.status ≠ .COMPLETED) (ha : job.attempts < MAX_ATTEMPTS)
    (ho : failureMessage o = some msg) (hfin : MAX_ATTEMPTS ≤ job.attempts + 1) :
    (processJobWithLifecycle s jobId o).jobs jobId =
        some { job with status := .FAILED, attempts := job.attempts + 1, error := some msg } ∧
    (∀ j, j ≠ jobId → (processJobWithLifecycle s jobId o).jobs j = s.jobs j) ∧
    (processJobWithLifecycle s jobId o).queue = s.queue ∧
    (processJobWithLifecycle s jobId o).published = s.published ++
      [⟨job.tenantId, jobId, .RUNNING, none⟩, ⟨job.tenantId, jobId, .FAILED, some msg⟩] := by
  have hm : ¬ MAX_ATTEMPTS ≤ job.attempts := Nat.not_le.mpr ha
  refine ⟨?_, fun j hji => ?_, ?_, ?_⟩ <;>
    simp [processJobWithLifecycle, hj, hc, hm, ho, hfin, markJobFailed, mapJob,
      appendEvent, *]

lemma step_fail_retry (s : WorkerState) (jobId : String) (o : ProcessOutcome)
    (job : Job) (msg : String) (hj : s.jobs jobId = some job)
    (hc : job.status ≠ .COMPLETED) (ha : job.attempts < MAX_ATTEMPTS)
    (ho : failureMessage o = some msg) (hretry : job.attempts + 1 < MAX_ATTEMPTS) :
    (processJobWithLifecycle s jobId o).jobs jobId =
        some { job with status := .PENDING, attempts := job.attempts + 1, error := some msg } ∧
    (∀ j, j ≠ jobId → (processJobWithLifecycle s jobId o).jobs j = s.jobs j) ∧
    (processJobWithLifecycle s jobId o).queue = jobId :: s.queue ∧
    (processJobWithLifecycle s jobId o).published = s.published ++
      [⟨job.tenantId, jobId, .RUNNING, none⟩] := by
  have hm : ¬ MAX_ATTEMPTS ≤ job.attempts := Nat.not_le.mpr ha
  have hm2 : ¬ MAX_ATTEMPTS ≤ job.attempts + 1 := Nat.not_le.mpr hretry
  refine ⟨?_, fun j hji => ?_, ?_, ?_⟩ <;>
    simp [processJobWithLifecycle, hj, hc, hm, ho, hm2, mapJob, appendEvent, *]

/-- Every lifecycle pass either leaves a job's `attempts` alone or — only
when the counter was still below `MAX_ATTEMPTS` — increments it by one. -/
lemma attemptsOf_step_cases (s : WorkerState) (jobId : String)
    (o : ProcessOutcome) (j : String) :
    attemptsOf (processJobWithLifecycle s jobId o) j = attemptsOf s j ∨
    (attemptsOf s j < MAX_ATTEMPTS ∧
      attemptsOf (processJobWithLifecycle s jobId o) j = attemptsOf s j + 1) := by
  cases hj : s.jobs jobId with
  | none => left; rw [step_missing s jobId o hj]
  | some job =>
    by_cases hc : job.status = .COMPLETED
    · left; rw [step_completed s jobId o job hj hc]
    · by_cases hji : j = jobId
      · subst hji
        by_cases hm : MAX_ATTEMPTS ≤ job.attempts
        · left
          rw [step_maxed s j o job hj hc hm]
          simp [attemptsOf, markJobFailed_jobs_self s j job.tenantId _ job hj, hj]
        · have ha : job.attempts < MAX_ATTEMPTS := Nat.lt_of_not_le hm
          right
          have hval : attemptsOf s j = job.attempts := by simp [attemptsOf, hj]
          refine ⟨by rw [hval]; exact ha, ?_⟩
          cases ho : failureMessage o with
          | none =>
            have h := (step_success s j o job hj hc ha ho).1
            simp [attemptsOf, h, hval, hj]
          | some msg =>
            by_cases hfin : MAX_ATTEMPTS ≤ job.attempts + 1
            · have h := (step_fail_final s j o job msg hj hc ha ho hfin).1
              simp [attemptsOf, h, hval, hj]
            · have h := (step_fail_retry s j o job msg hj hc ha ho
                (Nat.lt_of_not_le hfin)).1
              simp [attemptsOf, h, hval, hj]
      · left
        by_cases hm : MAX_ATTEMPTS ≤ job.attempts
        · rw [step_maxed s jobId o job hj hc hm]
          simp [attemptsOf, markJobFailed_jobs_ne s jobId job.tenantId _ j hji]
        · have ha : job.attempts < MAX_ATTEMPTS := Nat.lt_of_not_le hm
          cases ho : failureMessage o with
          | none =>
            have h := (step_success s jobId o job hj hc ha ho).2.1 j hji
            simp [attemptsOf, h]
          | some msg =>
            by_cases hfin : MAX_ATTEMPTS ≤ job.attempts + 1
            · have h := (step_fail_final s jobId o job msg hj hc ha ho hfin).2.1 j hji
              simp [attemptsOf, h]
            · have h := (step_fail_retry s jobId o job msg hj hc ha ho
                (Nat.lt_of_not_le hfin)).2.1 j hji
              simp [attemptsOf, h]

lemma attemptsOf_step_mono (s : WorkerState) (jobId : String)
    (o : ProcessOutcome) (j : String) :
    attemptsOf s j ≤ attemptsOf (processJobWithLifecycle s jobId o) j := by
  rcases attemptsOf_step_cases s jobId o j with h | ⟨_, h⟩ <;> omega

lemma attemptsOf_step_bounded (s : WorkerState) (jobId : String)
    (o : ProcessOutcome) (j : String) (hb : attemptsOf s j ≤ MAX_ATTEMPTS) :
    attemptsOf (processJobWithLifecycle s jobId o) j ≤ MAX_ATTEMPTS := by
  rcases attemptsOf_step_cases s jobId o j with h | ⟨hlt, h⟩ <;> omega

lemma applySteps_cons (s : WorkerState) (p : String × ProcessOutcome)
    (rest : List (String × ProcessOutcome)) :
    applySteps s (p :: rest) = applySteps (processJobWithLifecycle s p.1 p.2) rest := rfl

lemma attemptsOf_applySteps_mono (steps : List (String × ProcessOutcome))
    (s : WorkerState) (j : String) :
    attemptsOf s j ≤ attemptsOf (applySteps s steps) j := by
  induction steps generalizing s with
  | nil => exact Nat.le_refl _
  | cons p rest ih =>
    rw [applySteps_cons]
    exact Nat.le_trans (attemptsOf_step_mono s p.1 p.2 j)
      (ih (processJobWithLifecycle s p.1 p.2))

lemma attemptsOf_applySteps_bounded (steps : List (String × ProcessOutcome))
    (s : WorkerState) (j : String) (hb : attemptsOf s j ≤ MAX_ATTEMPTS) :
    attemptsOf (applySteps s steps) j ≤ MAX_ATTEMPTS := by
  induction steps generalizing s with
  | nil => exact hb
  | cons p rest ih =>
    rw [applySteps_cons]
    exact ih (processJobWithLifecycle s p.1 p.2) (attemptsOf_step_bounded s p.1 p.2 j hb)

lemma applySteps_append (s : WorkerState) (l1 l2 : List (String × ProcessOutcome)) :
    applySteps s (l1 ++ l2) = applySteps (applySteps s l1) l2 :=
  List.foldl_append _ _ _ _

/-- Repeatedly failing a job whose attempt budget is not yet exhausted
leaves it stored with one more started attempt per pass and never in
`COMPLETED`. -/
lemma applySteps_failures (fails : List ProcessOutcome) (s : WorkerState)
    (jobId : String) (job : Job) (hj : s.jobs jobId = some job)
    (hc : job.status ≠ .COMPLETED)
    (hlen : job.attempts + fails.length < MAX_ATTEMPTS)
    (hfail : ∀ o ∈ fails, (failureMessage o).isSome) :
    ∃ job1, (applySteps s (fails.map fun o => (jobId, o))).jobs jobId = some job1 ∧
      job1.attempts = job.attempts + fails.length ∧ job1.status ≠ .COMPLETED := by
  induction fails generalizing s job with
  | nil => exact ⟨job, by simpa [applySteps] using hj, by simp, hc⟩
  | cons o rest ih =>
    obtain ⟨m, hm⟩ := Option.isSome_iff_exists.mp (hfail o (List.mem_cons_self o rest))
    have hlen1 : job.attempts + (rest.length + 1) < MAX_ATTEMPTS := by
      simpa [List.length_cons] using hlen
    have ha : job.attempts < MAX_ATTEMPTS := by omega
    have hretry : job.attempts + 1 < MAX_ATTEMPTS := by omega
    obtain ⟨h1, -, -, -⟩ := step_fail_retry s jobId o job m hj hc ha hm hretry
    obtain ⟨job1, hja, hjb, hjc⟩ := ih (processJobWithLifecycle s jobId o)
      { job with status := .PENDING, attempts := job.attempts + 1, error := some m }
      h1 (by simp) (by simp; omega)
      (fun o2 ho2 => hfail o2 (List.mem_cons_of_mem o ho2))
    refine ⟨job1, ?_, ?_, hjc⟩
    · simpa [applySteps_cons] using hja
    · simp only [List.length_cons]
      simp at hjb
      omega


/-! ## Claim theorems -/

/-- C1: when the strategy fails (returns failure or raises) on a started
attempt, the worker either — new attempt count at `MAX_ATTEMPTS` — marks
the job FAILED with the failure's message and publishes a FAILED update,
or puts it back to PENDING with the message recorded in `error`,
re-enqueues the id and publishes nothing beyond the RUNNING update of the
started attempt; consequently a job whose strategy fails on every attempt
ends FAILED with `attempts = MAX_ATTEMPTS` and a non-null `error`. -/
theorem worker_retry_then_permanent_failure
    (s : WorkerState) (jobId : String) (job : Job) (o : ProcessOutcome)
    (msg : String) (hj : s.jobs jobId = some job)
    (hc : job.status ≠ .COMPLETED) (ha : job.attempts < MAX_ATTEMPTS)
    (ho : failureMessage o = some msg) :
    (MAX_ATTEMPTS ≤ job.attempts + 1 →
      (processJobWithLifecycle s jobId o).jobs jobId =
          some { job with
            status := .FAILED, attempts := job.attempts + 1, error := some msg } ∧
      (processJobWithLifecycle s jobId o).published = s.published ++
        [⟨job.tenantId, jobId, .RUNNING, none⟩,
         ⟨job.tenantId, jobId, .FAILED, some msg⟩] ∧
      (processJobWithLifecycle s jobId o).queue = s.queue) ∧
    (job.attempts + 1 < MAX_ATTEMPTS →
      (processJobWithLifecycle s jobId o).jobs jobId =
          some { job with
            status := .PENDING, attempts := job.attempts + 1, error := some msg } ∧
      (processJobWithLifecycle s jobId o).queue = jobId :: s.queue ∧
      (processJobWithLifecycle s jobId o).published = s.published ++
        [⟨job.tenantId, jobId, .RUNNING, none⟩]) ∧
    (∀ (s0 : WorkerState) (jid : String) (job0 : Job) (o1 o2 o3 : ProcessOutcome)
        (m1 m2 m3 : String),
      s0.jobs jid = some job0 → job0.status = .PENDING → job0.attempts = 0 →
      failureMessage o1 = some m1 → failureMessage o2 = some m2 →
      failureMessage o3 = some m3 →
      ∃ jobF, (applySteps s0 [(jid, o1), (jid, o2), (jid, o3)]).jobs jid = some jobF ∧
        jobF.status = .FAILED ∧ jobF.attempts = MAX_ATTEMPTS ∧
        jobF.error = some m3) := by
  refine ⟨fun hfin => ?_, fun hretry => ?_, ?_⟩
  · obtain ⟨h1, -, h3, h4⟩ := step_fail_final s jobId o job msg hj hc ha ho hfin
    exact ⟨h1, h4, h3⟩
  · obtain ⟨h1, -, h3, h4⟩ := step_fail_retry s jobId o job msg hj hc ha ho hretry
    exact ⟨h1, h3, h4⟩
  · intro s0 jid job0 o1 o2 o3 m1 m2 m3 hj0 hst0 hat0 hm1 hm2 hm3
    have hMA : MAX_ATTEMPTS = 3 := rfl
    have hc0 : job0.status ≠ .COMPLETED := by rw [hst0]; exact fun hcon => by cases hcon
    obtain ⟨e1, -, -, -⟩ := step_fail_retry s0 jid o1 job0 m1 hj0 hc0
      (by omega) hm1 (by omega)
    obtain ⟨e2, -, -, -⟩ := step_fail_retry (processJobWithLifecycle s0 jid o1) jid o2
      { job0 with status := .PENDING, attempts := job0.attempts + 1, error := some m1 }
      m2 e1
      (by intro hcon; cases hcon)
      (by show job0.attempts + 1 < MAX_ATTEMPTS; omega)
      hm2
      (by show job0.attempts + 1 + 1 < MAX_ATTEMPTS; omega)
    obtain ⟨e3, -, -, -⟩ := step_fail_final
      (processJobWithLifecycle (processJobWithLifecycle s0 jid o1) jid o2) jid o3
      { job0 with
        status := .PENDING, attempts := job0.attempts + 1 + 1, error := some m2 }
      m3 e2
      (by intro hcon; cases hcon)
      (by show job0.attempts + 1 + 1 < MAX_ATTEMPTS; omega)
      hm3
      (by show MAX_ATTEMPTS ≤ job0.attempts + 1 + 1 + 1; omega)
    refine ⟨_, e3, rfl, ?_, rfl⟩
    show job0.attempts + 1 + 1 + 1 = MAX_ATTEMPTS
    omega

theorem worker_retry_then_permanent_failure_witness :
    (exState .PENDING 0 none).jobs "j1" = some (exJob .PENDING 0 none) ∧
    (processJobWithLifecycle (exState .PENDING 0 none) "j1"
      (.raise "boom")).queue = ["j1"] := by
  refine ⟨by decide, ?_⟩
  have h := worker_retry_then_permanent_failure (exState .PENDING 0 none) "j1"
    (exJob .PENDING 0 none) (.raise "boom") "boom" (by decide) (by decide)
    (by decide) rfl
  exact (h.2.1 (by decide)).2.1

/-- C5: when the strategy succeeds, the worker sets the job COMPLETED
with `error` cleared and publishes a COMPLETED update; the job's
`attempts` equals the index `k` of the succeeding started attempt, both
per pass and along a whole run of `k - 1` failures followed by a
success. -/
theorem worker_success_completes
    (s : WorkerState) (jobId : String) (job : Job) (o : ProcessOutcome) (k : Nat)
    (hj : s.jobs jobId = some job) (hc : job.status ≠ .COMPLETED)
    (ha : job.attempts < MAX_ATTEMPTS) (hk : job.attempts + 1 = k)
    (ho : failureMessage o = none) :
    ((processJobWithLifecycle s jobId o).jobs jobId =
        some { job with status := .COMPLETED, attempts := k, error := none } ∧
      (processJobWithLifecycle s jobId o).published = s.published ++
        [⟨job.tenantId, jobId, .RUNNING, none⟩,
         ⟨job.tenantId, jobId, .COMPLETED, none⟩]) ∧
    (∀ (s0 : WorkerState) (jid : String) (job0 : Job)
        (fails : List ProcessOutcome) (ok : ProcessOutcome) (n : Nat),
      s0.jobs jid = some job0 → job0.status = .PENDING → job0.attempts = 0 →
      (∀ f ∈ fails, (failureMessage f).isSome) → failureMessage ok = none →
      fails.length + 1 = n → n ≤ MAX_ATTEMPTS →
      ∃ jobC, (applySteps s0 ((fails.map fun f => (jid, f)) ++ [(jid, ok)])).jobs jid
          = some jobC ∧
        jobC.status = .COMPLETED ∧ jobC.attempts = n ∧ jobC.error = none) := by
  constructor
  · obtain ⟨h1, -, -, h4⟩ := step_success s jobId o job hj hc ha ho
    rw [hk] at h1
    exact ⟨h1, h4⟩
  · intro s0 jid job0 fails ok n hj0 hst0 hat0 hfails hok hn hnmax
    have hMA : MAX_ATTEMPTS = 3 := rfl
    have hc0 : job0.status ≠ .COMPLETED := by rw [hst0]; exact fun hcon => by cases hcon
    obtain ⟨job1, hja, hjb, hjc⟩ := applySteps_failures fails s0 jid job0 hj0 hc0
      (by omega) hfails
    obtain ⟨f1, -, -, -⟩ := step_success (applySteps s0 (fails.map fun f => (jid, f)))
      jid ok job1 hja hjc (by omega) hok
    rw [applySteps_append]
    refine ⟨{ job1 with
      status := .COMPLETED, attempts := job1.attempts + 1, error := none },
      ?_, rfl, ?_, rfl⟩
    · show (processJobWithLifecycle (applySteps s0 (fails.map fun f => (jid, f)))
        jid ok).jobs jid = _
      exact f1
    · show job1.attempts + 1 = n
      omega

theorem worker_success_completes_witness :
    (exState .PENDING 0 none).jobs "j1" = some (exJob .PENDING 0 none) ∧
    (processJobWithLifecycle (exState .PENDING 0 none) "j1" .success).jobs "j1" =
      some (exJob .COMPLETED 1 none) := by
  refine ⟨by decide, ?_⟩
  have h := (worker_success_completes (exState .PENDING 0 none) "j1"
    (exJob .PENDING 0 none) .success 1 (by decide) (by decide) (by decide)
    rfl rfl).1.1
  exact h

/-- C2 (counterexample to the claim as stated): when the max-attempts
guard fires, the stored error string is `"Max retry attempts exceeded"`,
not `"max attempts exceeded"` as the claim quotes. -/
theorem max_attempts_error_string_counterexample :
    ((processJobWithLifecycle (exState .PENDING 3 none) "j1" .success).jobs
        "j1").map Job.error = some (some "Max retry attempts exceeded") ∧
    ((processJobWithLifecycle (exState .PENDING 3 none) "j1" .success).jobs
        "j1").map Job.error ≠ some (some "max attempts exceeded") := by
  exact ⟨by decide, by decide⟩

/-- C2 (amended): a dequeued job that exists, is not COMPLETED and has
`attempts ≥ MAX_ATTEMPTS` is marked FAILED with error
`"Max retry attempts exceeded"` and a FAILED update is published, with
`attempts` untouched and the strategy never invoked (the result does not
depend on the strategy's outcome); and the ceiling is inclusive: a job
with `attempts = MAX_ATTEMPTS - 1` is still started (its RUNNING update
is published and `attempts` reaches `MAX_ATTEMPTS`). -/
theorem max_attempts_guard_marks_failed
    (s : WorkerState) (jobId : String) (job : Job) (o : ProcessOutcome)
    (hj : s.jobs jobId = some job) (hc : job.status ≠ .COMPLETED)
    (hm : MAX_ATTEMPTS ≤ job.attempts) :
    processJobWithLifecycle s jobId o =
      markJobFailed s jobId job.tenantId "Max retry attempts exceeded" ∧
    (∀ o2, processJobWithLifecycle s jobId o2 = processJobWithLifecycle s jobId o) ∧
    (processJobWithLifecycle s jobId o).jobs jobId =
      some { job with
        status := .FAILED, error := some "Max retry attempts exceeded" } ∧
    (processJobWithLifecycle s jobId o).published = s.published ++
      [⟨job.tenantId, jobId, .FAILED, some "Max retry attempts exceeded"⟩] ∧
    (processJobWithLifecycle s jobId o).queue = s.queue ∧
    (∀ (s2 : WorkerState) (j2 : String) (job2 : Job) (o2 : ProcessOutcome),
      s2.jobs j2 = some job2 → job2.status ≠ .COMPLETED →
      job2.attempts + 1 = MAX_ATTEMPTS →
      ∃ jobN rest, (processJobWithLifecycle s2 j2 o2).jobs j2 = some jobN ∧
        jobN.attempts = MAX_ATTEMPTS ∧
        (processJobWithLifecycle s2 j2 o2).published =
          s2.published ++ ⟨job2.tenantId, j2, .RUNNING, none⟩ :: rest) := by
  have hstep := step_maxed s jobId o job hj hc hm
  refine ⟨hstep, fun o2 => ?_, ?_, ?_, ?_, ?_⟩
  · rw [hstep, step_maxed s jobId o2 job hj hc hm]
  · rw [hstep]; exact markJobFailed_jobs_self s jobId job.tenantId _ job hj
  · rw [hstep]; exact markJobFailed_published s jobId job.tenantId _
  · rw [hstep]; exact markJobFailed_queue s jobId job.tenantId _
  · intro s2 j2 job2 o2 hj2 hc2 hceil
    have ha2 : job2.attempts < MAX_ATTEMPTS := by omega
    cases ho2 : failureMessage o2 with
    | none =>
      obtain ⟨h1, -, -, h4⟩ := step_success s2 j2 o2 job2 hj2 hc2 ha2 ho2
      exact ⟨_, [⟨job2.tenantId, j2, .COMPLETED, none⟩], h1, hceil, h4⟩
    | some m =>
      obtain ⟨h1, -, -, h4⟩ := step_fail_final s2 j2 o2 job2 m hj2 hc2 ha2 ho2
        (by omega)
      exact ⟨_, [⟨job2.tenantId, j2, .FAILED, some m⟩], h1, hceil, h4⟩

theorem max_attempts_guard_marks_failed_witness :
    (exState .PENDING 3 none).jobs "j1" = some (exJob .PENDING 3 none) ∧
    (processJobWithLifecycle (exState .PENDING 3 none) "j1" .success).jobs "j1" =
      some (exJob .FAILED 3 (some "Max retry attempts exceeded")) := by
  refine ⟨by decide, ?_⟩
  have h := (max_attempts_guard_marks_failed (exState .PENDING 3 none) "j1"
    (exJob .PENDING 3 none) .success (by decide) (by decide) (by decide)).2.2.1
  exact h

/-- C3: one lifecycle pass never decreases any job's `attempts`, a whole
sequence of passes never decreases it, and a sequence of passes keeps it
bounded by `MAX_ATTEMPTS` whenever it starts within the bound. -/
theorem attempts_monotone_and_bounded :
    (∀ (s : WorkerState) (jobId : String) (o : ProcessOutcome) (j : String),
      attemptsOf s j ≤ attemptsOf (processJobWithLifecycle s jobId o) j) ∧
    (∀ (steps : List (String × ProcessOutcome)) (s : WorkerState) (j : String),
      attemptsOf s j ≤ attemptsOf (applySteps s steps) j) ∧
    (∀ (steps : List (String × ProcessOutcome)) (s : WorkerState) (j : String),
      attemptsOf s j ≤ MAX_ATTEMPTS →
      attemptsOf (applySteps s steps) j ≤ MAX_ATTEMPTS) :=
  ⟨attemptsOf_step_mono, attemptsOf_applySteps_mono, attemptsOf_applySteps_bounded⟩

theorem attempts_monotone_and_bounded_witness :
    attemptsOf (exState .PENDING 0 none) "j1" ≤ MAX_ATTEMPTS ∧
    attemptsOf (applySteps (exState .PENDING 0 none)
      [("j1", .raise "a"), ("j1", .raise "b")]) "j1" ≤ MAX_ATTEMPTS :=
  ⟨by decide, attempts_monotone_and_bounded.2.2
    [("j1", .raise "a"), ("j1", .raise "b")] (exState .PENDING 0 none) "j1"
    (by decide)⟩

/-- C4 (counterexample to the claim as stated): FAILED is not fully
terminal — redelivering an already-FAILED job overwrites its `error`
(here from `"boom"` to `"Max retry attempts exceeded"`) and publishes a
further FAILED update. -/
theorem failed_redelivery_counterexample :
    ((processJobWithLifecycle (exState .FAILED 3 (some "boom")) "j1"
        .success).jobs "j1").map Job.error =
      some (some "Max retry attempts exceeded") ∧
    ((processJobWithLifecycle (exState .FAILED 3 (some "boom")) "j1"
        .success).jobs "j1").map Job.error ≠ some (some "boom") ∧
    (processJobWithLifecycle (exState .FAILED 3 (some "boom")) "j1"
        .success).published ≠ [] := by
  exact ⟨by decide, by decide, by decide⟩

/-- C4 (amended): COMPLETED is fully terminal — a duplicate or late
delivery of a COMPLETED job changes nothing and publishes nothing.  A
FAILED job's `status` and `attempts` are also never changed, but a
duplicate delivery of a FAILED job (whose `attempts` is necessarily
`≥ MAX_ATTEMPTS` when it was failed by the worker) overwrites its
`error` with `"Max retry attempts exceeded"` and publishes another
FAILED update. -/
theorem completed_terminal_failed_error_overwritten
    (s : WorkerState) (jobId : String) (job : Job) (o : ProcessOutcome)
    (hj : s.jobs jobId = some job) :
    (job.status = .COMPLETED → processJobWithLifecycle s jobId o = s) ∧
    (job.status = .FAILED → MAX_ATTEMPTS ≤ job.attempts →
      (processJobWithLifecycle s jobId o).jobs jobId =
        some { job with
          status := .FAILED, error := some "Max retry attempts exceeded" } ∧
      (processJobWithLifecycle s jobId o).published = s.published ++
        [⟨job.tenantId, jobId, .FAILED, some "Max retry attempts exceeded"⟩] ∧
      (processJobWithLifecycle s jobId o).queue = s.queue) := by
  constructor
  · intro hcomp; exact step_completed s jobId o job hj hcomp
  · intro hfailed hm
    have hc : job.status ≠ .COMPLETED := by rw [hfailed]; exact fun h => by cases h
    have hstep := step_maxed s jobId o job hj hc hm
    rw [hstep]
    exact ⟨markJobFailed_jobs_self s jobId job.tenantId _ job hj,
      markJobFailed_published s jobId job.tenantId _,
      markJobFailed_queue s jobId job.tenantId _⟩

theorem completed_terminal_witness :
    (exState .COMPLETED 1 none).jobs "j1" = some (exJob .COMPLETED 1 none) ∧
    processJobWithLifecycle (exState .COMPLETED 1 none) "j1" (.raise "dup") =
      exState .COMPLETED 1 none := by
  refine ⟨by decide, ?_⟩
  exact (completed_terminal_failed_error_overwritten (exState .COMPLETED 1 none)
    "j1" (exJob .COMPLETED 1 none) (.raise "dup") (by decide)).1 rfl

/-- C9: a dequeued job whose `type` is none of the registered strategies
is an immediate processing failure consuming exactly one attempt: the
thrown `Unknown job type` message is recorded in `error`, the job follows
the normal retry/FAILED path (re-enqueued while the budget lasts), and
the worker loop body handles such a job through the ordinary total
lifecycle function rather than crashing. -/
theorem unknown_type_is_normal_failure
    (s : WorkerState) (jobId : String) (job : Job) (strat : ProcessOutcome)
    (hj : s.jobs jobId = some job) (hc : job.status ≠ .COMPLETED)
    (ha : job.attempts < MAX_ATTEMPTS) (hu : job.type ∉ knownJobTypes) :
    (∃ job1, (processJobWithLifecycle s jobId (processJob job.type strat)).jobs
        jobId = some job1 ∧
      job1.attempts = job.attempts + 1 ∧
      job1.error = some ("Unknown job type: " ++ job.type) ∧
      (job1.status = .PENDING ∨ job1.status = .FAILED)) ∧
    (job.attempts + 1 < MAX_ATTEMPTS →
      (processJobWithLifecycle s jobId (processJob job.type strat)).queue =
        jobId :: s.queue) ∧
    (∀ (oracle : String → ProcessOutcome) (q : List String),
      s.queue = q ++ [jobId] →
      runWorkerStep s oracle =
        processJobWithLifecycle { s with queue := q } jobId
          (processJob job.type (oracle job.type))) := by
  have hdisp : ∀ o2, processJob job.type o2 =
      .raise ("Unknown job type: " ++ job.type) := by
    intro o2; simp [processJob, hu]
  have hmsg : failureMessage (processJob job.type strat) =
      some ("Unknown job type: " ++ job.type) := by rw [hdisp]; rfl
  refine ⟨?_, fun hretry => ?_, fun oracle q hq => ?_⟩
  · by_cases hfin : MAX_ATTEMPTS ≤ job.attempts + 1
    · obtain ⟨h1, -, -, -⟩ := step_fail_final s jobId (processJob job.type strat)
        job ("Unknown job type: " ++ job.type) hj hc ha hmsg hfin
      exact ⟨_, h1, rfl, rfl, Or.inr rfl⟩
    · obtain ⟨h1, -, -, -⟩ := step_fail_retry s jobId (processJob job.type strat)
        job ("Unknown job type: " ++ job.type) hj hc ha hmsg
        (Nat.lt_of_not_le hfin)
      exact ⟨_, h1, rfl, rfl, Or.inl rfl⟩
  · obtain ⟨-, -, h3, -⟩ := step_fail_retry s jobId (processJob job.type strat)
      job ("Unknown job type: " ++ job.type) hj hc ha hmsg hretry
    exact h3
  · have hjq : WorkerState.jobs { s with queue := (q ++ [jobId]).dropLast } jobId
        = some job := hj
    simp [runWorkerStep, hq, List.getLast?_concat, List.dropLast_concat, hj]

theorem unknown_type_witness :
    exStateU.jobs "j1" = some exJobU ∧ "pdf" ∉ knownJobTypes ∧
    (∃ job1, (processJobWithLifecycle exStateU "j1"
        (processJob exJobU.type .success)).jobs "j1" = some job1 ∧
      job1.attempts = 1 ∧
      job1.error = some ("Unknown job type: " ++ exJobU.type) ∧
      (job1.status = .PENDING ∨ job1.status = .FAILED)) := by
  refine ⟨by decide, by decide, ?_⟩
  have h := (unknown_type_is_normal_failure exStateU "j1" exJobU .success
    (by decide) (by decide) (by decide) (by decide)).1
  exact h

/-- C6: the fan-out of an update for tenant `T` sends it to every open
connection currently subscribed to `T` and to no connection that is not
subscribed to `T` (in particular to none subscribed only to other
tenants). -/
theorem fanout_delivers_exactly_to_tenant_subscribers
    (subs : Registry) (ready : Nat → Bool) (T jobId : String)
    (status : JobStatus) (error : Option String) (c : Nat) :
    (c ∈ subs T → ready c = true →
      c ∈ (broadcastJobUpdate subs ready T jobId status error).2) ∧
    (c ∉ subs T → c ∉ (broadcastJobUpdate subs ready T jobId status error).2) := by
  constructor
  · intro h1 h2
    simp [broadcastJobUpdate, Finset.mem_filter, h1, h2]
  · intro h1
    simp [broadcastJobUpdate, Finset.mem_filter, h1]

theorem fanout_witness :
    0 ∈ exSubs "t1" ∧ 2 ∉ exSubs "t1" ∧
    0 ∈ (broadcastJobUpdate exSubs (fun _ => true) "t1" "job9" .COMPLETED none).2 ∧
    2 ∉ (broadcastJobUpdate exSubs (fun _ => true) "t1" "job9" .COMPLETED none).2 := by
  refine ⟨by decide, by decide, ?_, ?_⟩
  · exact (fanout_delivers_exactly_to_tenant_subscribers exSubs (fun _ => true)
      "t1" "job9" .COMPLETED none 0).1 (by decide) rfl
  · exact (fanout_delivers_exactly_to_tenant_subscribers exSubs (fun _ => true)
      "t1" "job9" .COMPLETED none 2).2 (by decide)

/-- C7 (counterexample to the claim as stated): fan-out with a closed
subscribed connection (0, `readyState ≠ OPEN`) still reaches the open
subscriber 1 — but it does NOT remove the closed connection's
subscriptions: 0 is still registered for `"t1"` afterwards, so the
fan-out does not trigger the cleanup the claim asserts. -/
theorem broadcast_no_cleanup_counterexample :
    0 ∈ exSubsClosed "t1" ∧ (fun c => c == 1) 0 = false ∧
    1 ∈ (broadcastJobUpdate exSubsClosed (fun c => c == 1) "t1" "j9"
      .RUNNING none).2 ∧
    0 ∉ (broadcastJobUpdate exSubsClosed (fun c => c == 1) "t1" "j9"
      .RUNNING none).2 ∧
    0 ∈ (broadcastJobUpdate exSubsClosed (fun c => c == 1) "t1" "j9"
      .RUNNING none).1 "t1" := by
  exact ⟨by decide, rfl, by decide, by decide, by decide⟩

/-- C7 (amended): a connection that is not OPEN is skipped by the
fan-out (no send is attempted on it), so every open subscribed connection
still receives the event; the fan-out itself leaves the registry
unchanged — removal of the connection's subscriptions is performed by the
connection's `close` handler, which deletes it from every tenant's
set. -/
theorem broadcast_skips_closed_and_close_cleans
    (subs : Registry) (ready : Nat → Bool) (T jobId : String)
    (status : JobStatus) (error : Option String) (c : Nat)
    (hclosed : ready c = false) :
    c ∉ (broadcastJobUpdate subs ready T jobId status error).2 ∧
    (∀ c2 ∈ subs T, ready c2 = true →
      c2 ∈ (broadcastJobUpdate subs ready T jobId status error).2) ∧
    (broadcastJobUpdate subs ready T jobId status error).1 = subs ∧
    (∀ t, c ∉ handleClose subs c t) := by
  refine ⟨?_, fun c2 h1 h2 => ?_, rfl, fun t => ?_⟩
  · simp [broadcastJobUpdate, Finset.mem_filter, hclosed]
  · simp [broadcastJobUpdate, Finset.mem_filter, h1, h2]
  · simp [handleClose]

theorem broadcast_skips_closed_witness :
    (fun c => c == 1) 0 = false ∧
    0 ∉ (broadcastJobUpdate exSubsClosed (fun c => c == 1) "t1" "j9"
      .RUNNING none).2 ∧
    (broadcastJobUpdate exSubsClosed (fun c => c == 1) "t1" "j9"
      .RUNNING none).1 = exSubsClosed ∧
    (∀ t, 0 ∉ handleClose exSubsClosed 0 t) := by
  have h := broadcast_skips_closed_and_close_cleans exSubsClosed (fun c => c == 1)
    "t1" "j9" .RUNNING none 0 rfl
  exact ⟨rfl, h.1, h.2.2.1, h.2.2.2⟩

/-- C8: `POST /jobs` with a body accepted by `CreateJobSchema` creates a
PENDING job record under the fresh id, pushes that id onto the queue and
answers 201, leaving every other record alone; a body the schema rejects
is answered 400 with the store and queue completely untouched. -/
theorem post_jobs_validation_gate (s : WorkerState) (newId : String)
    (b : RawCreateJobBody) :
    (∀ tid ty, safeParseCreateJob b = some (tid, ty) →
      (postJobs s newId b).2 = 201 ∧
      (postJobs s newId b).1.jobs newId = some (Job.mk tid ty .PENDING 0 none) ∧
      (postJobs s newId b).1.queue = newId :: s.queue ∧
      (∀ id2, id2 ≠ newId → (postJobs s newId b).1.jobs id2 = s.jobs id2)) ∧
    (safeParseCreateJob b = none → postJobs s newId b = (s, 400)) := by
  constructor
  · intro tid ty hv
    refine ⟨by simp [postJobs, hv], by simp [postJobs, hv],
      by simp [postJobs, hv], fun id2 hne => by simp [postJobs, hv, hne]⟩
  · intro hv
    simp [postJobs, hv]

theorem post_jobs_witness :
    safeParseCreateJob exGoodBody = some ("t1", "email") ∧
    (postJobs (exState .PENDING 0 none) "id9" exGoodBody).2 = 201 ∧
    (postJobs (exState .PENDING 0 none) "id9" exGoodBody).1.queue = ["id9"] ∧
    safeParseCreateJob exBadBody = none ∧
    postJobs (exState .PENDING 0 none) "id9" exBadBody =
      (exState .PENDING 0 none, 400) := by
  have hg := (post_jobs_validation_gate (exState .PENDING 0 none) "id9"
    exGoodBody).1 "t1" "email" (by decide)
  have hb := (post_jobs_validation_gate (exState .PENDING 0 none) "id9"
    exBadBody).2 (by decide)
  exact ⟨by decide, hg.1, hg.2.2.1, by decide, hb⟩

/-- C10: a WebSocket client message that is not valid JSON, or that does
not parse as SUBSCRIBE/UNSUBSCRIBE under `WSClientMessageSchema`, gets an
ERROR reply and leaves the subscription registry untouched — no tenant's
subscriber set changes; the handler is a total function, so no exception
escapes it. -/
theorem invalid_ws_message_rejected
    (subs : Registry) (conn : Nat) (data : Option RawClientMessage)
    (h : data = none ∨ ∃ m, data = some m ∧ safeParseClientMessage m = none) :
    (handleClientMessage subs conn data).1 = subs ∧
    (∀ t, (handleClientMessage subs conn data).1 t = subs t) ∧
    ∃ msg, (handleClientMessage subs conn data).2 = some msg := by
  have hmain : (handleClientMessage subs conn data).1 = subs ∧
      ∃ msg, (handleClientMessage subs conn data).2 = some msg := by
    rcases h with h | ⟨m, hm, hp⟩
    · subst h; exact ⟨rfl, "Failed to parse message", rfl⟩
    · subst hm; simp [handleClientMessage, hp]
  exact ⟨hmain.1, fun t => by rw [hmain.1], hmain.2⟩

theorem invalid_ws_message_witness :
    safeParseClientMessage ⟨some "PING", some "t1"⟩ = none ∧
    (handleClientMessage exSubs 0 (some ⟨some "PING", some "t1"⟩)).1 = exSubs ∧
    (∃ msg, (handleClientMessage exSubs 0
      (some ⟨some "PING", some "t1"⟩)).2 = some msg) ∧
    (handleClientMessage exSubs 0 none).1 = exSubs := by
  have h1 := invalid_ws_message_rejected exSubs 0 (some ⟨some "PING", some "t1"⟩)
    (Or.inr ⟨_, rfl, by decide⟩)
  have h2 := invalid_ws_message_rejected exSubs 0 none (Or.inl rfl)
  exact ⟨by decide, h1.1, h1.2.2, h2.1⟩

end Pipeyard
